import Mathlib

/-!
Verification development for the localbase daemon.

The repository mixes several historical variants of the same daemon; every
definition below is a shallow embedding of one concrete Go function, named in
its doc comment together with the file it was translated from:

* `Core` embeds the `LocalBase` orchestrator and `DomainValidator` of
  `core.go` (registry keyed by normalized domain; Caddy route added first,
  mDNS second).
* `Lb` embeds the older `LocalBase` variant of `localbase.go` (mDNS
  registered first, Caddy second, with a compensating rollback).
* `P8` embeds the `LocalBase` variant found in the unnamed source
  `part_008` (same order as `Lb`, with the corrected rollback).
* `Pool` embeds the connection pool of `pool.go`.
* `Proto` embeds the JSON protocol handler of the unnamed source `part_004`.

External collaborators (Caddy admin API, bonjour mDNS) are modelled as
fault oracles: a `Faults` record says which collaborator calls fail, and the
embeddings additionally return the list of collaborator calls they made, so
that rollback and no-call properties can be stated.  I/O (network reads and
writes) is modelled by the case analysis the code itself performs on the
outcome of the read (`ConnInput`) and by recording what was written.

Go string primitives (`strings.HasSuffix`, `strings.TrimSuffix`,
`strings.Split`, `strings.TrimSpace`, `len`) are re-implemented over the
character list of the Lean string in the `Str` namespace so that every
definition evaluates by kernel reduction; all strings handled by the daemon
are ASCII, where Go's byte-wise semantics and the character-wise semantics
below coincide.
-/

namespace Str

/-- Go `len(s)` (byte length; character length coincides on ASCII). -/
def len (s : String) : Nat := s.data.length

/-- Go `strings.HasSuffix s suff`. -/
def endsWith (s suff : String) : Bool :=
  decide (suff.data.length ≤ s.data.length) &&
    decide (s.data.drop (s.data.length - suff.data.length) = suff.data)

/-- Drop the last `n` characters; used to embed `strings.TrimSuffix`. -/
def dropRight (s : String) (n : Nat) : String :=
  ⟨s.data.take (s.data.length - n)⟩

/-- Go `strings.TrimSuffix s suff`: drop one occurrence of `suff` from the
end of `s` if present. -/
def trimOneSuffix (s suff : String) : String :=
  if endsWith s suff then dropRight s (len suff) else s

/-- Go `strings.TrimSpace` (the daemon only ever feeds it ASCII, where
Unicode space trimming and `Char.isWhitespace` trimming agree). -/
def trimSpace (s : String) : String :=
  ⟨((s.data.dropWhile Char.isWhitespace).reverse.dropWhile
      Char.isWhitespace).reverse⟩

/-- Go `strings.Split s "."` on the character list. -/
def splitDots : List Char → List (List Char)
  | [] => [[]]
  | c :: rest =>
    if c = '.' then [] :: splitDots rest
    else
      match splitDots rest with
      | [] => [[c]]
      | l :: ls => (c :: l) :: ls

/-- Go `strings.Split s "."`. -/
def splitOnDot (s : String) : List String :=
  (splitDots s.data).map (fun l => ⟨l⟩)

end Str

namespace Core

/-- Character class `[a-zA-Z0-9]` of the domain-label regex in
`NewValidator` (core.go). -/
def isAlnumChar (c : Char) : Bool :=
  ('a' ≤ c && c ≤ 'z') || ('A' ≤ c && c ≤ 'Z') || ('0' ≤ c && c ≤ '9')

/-- Character class `[a-zA-Z0-9\-]` of the domain-label regex. -/
def isLabelInnerChar (c : Char) : Bool :=
  isAlnumChar c || c = '-'

/-- The label regex `^[a-zA-Z0-9]([a-zA-Z0-9\-]{0,61}[a-zA-Z0-9])?$` of
`NewValidator` (core.go), specialised to dot-free strings: the trailing
dot group of the source regex can only match via a dot, and the inputs
(labels produced by splitting on the dot) never contain one.  A dot-free
string matches iff it is a single alphanumeric character, or starts and ends
with an alphanumeric character with at most 61 characters of the inner class
in between. -/
def labelRegexAccepts (label : String) : Bool :=
  match label.data with
  | [] => false
  | [c] => isAlnumChar c
  | c :: rest =>
    isAlnumChar c &&
    (match rest.getLast? with
     | none => false
     | some lastChar =>
       isAlnumChar lastChar && rest.dropLast.all isLabelInnerChar &&
         decide (rest.dropLast.length ≤ 61))

/-- Per-label loop of `DomainValidator.ValidateDomain` (core.go lines
519-531): first error among empty label, over-long label, regex mismatch. -/
def checkLabels : List String → Option String
  | [] => none
  | label :: rest =>
    if label = "" then some "domain contains empty label"
    else if Str.len label > 63 then
      some ("domain label too long (max 63 characters): " ++ label)
    else if labelRegexAccepts label = false then
      some ("invalid domain label: " ++ label)
    else checkLabels rest

/-- Embeds `DomainValidator.ValidateDomain` (core.go lines 501-534).  Returns
`some msg` on rejection, `none` on acceptance, mirroring the Go `error`
result. -/
def ValidateDomain (domain : String) : Option String :=
  let d := Str.trimOneSuffix domain ".local"
  if d = "" then some "domain cannot be empty"
  else if Str.len d > 253 then
    some "domain name too long (max 253 characters)"
  else if d = "localhost" then some "localhost is a reserved domain"
  else checkLabels (Str.splitOnDot d)

/-- Embeds `DomainValidator.ValidatePort` (core.go lines 537-542). -/
def ValidatePort (port : Int) : Option String :=
  if port < 1 ∨ port > 65535 then some "port must be between 1 and 65535"
  else none

/-- Normalization step of `LocalBase.Add` (core.go lines 198-201): append
`.local` only when the suffix is missing. -/
def normalizeDomain (domain : String) : String :=
  if Str.endsWith domain ".local" then domain else domain ++ ".local"

/-- Association-list lookup standing for a Go map read (`l.domains[domain]`).
States built by the embedded operations never hold a key twice. -/
def lookupKey {α : Type} : List (String × α) → String → Option α
  | [], _ => none
  | (k, v) :: rest, key => if k = key then some v else lookupKey rest key

/-- Association-list key removal standing for Go `delete(m, key)`. -/
def eraseKey {α : Type} (l : List (String × α)) (key : String) :
    List (String × α) :=
  l.filter (fun p => p.1 ≠ key)

/-- Embeds `DomainInfo` as used by `LocalBase.List` (core.go lines 273-276): a
domain together with its port. -/
structure DomainInfo where
  Domain : String
  Port : Int
deriving DecidableEq, Repr

/-- State of the core.go `LocalBase`: the `domains` registry map (domain ↦
port, the only field of `domainEntry`) and the set of domains with a live
mDNS server handle in `mdnsServers`. -/
structure State where
  domains : List (String × Int)
  mdnsServers : List String
deriving DecidableEq, Repr

/-- Fault oracle for the two external collaborators.  `some msg` makes the
corresponding call fail with message `msg`; `none` makes it succeed.
`mdnsShutdownFails` is carried for completeness: `bonjour.Server.Shutdown`
returns nothing, so a failing teardown is invisible to the caller and has no
effect on control flow anywhere in the code. -/
structure Faults where
  caddyAddFails : Option String
  mdnsRegisterFails : Option String
  caddyRemoveFails : Option String
  mdnsShutdownFails : Bool
deriving DecidableEq, Repr

/-- All collaborator calls succeed. -/
def noFaults : Faults := ⟨none, none, none, false⟩

/-- One call made to an external collaborator, with its arguments. -/
inductive ExtCall
  | caddyAdd (domains : List String) (port : Int)
  | caddyRemove (domains : List String)
  | mdnsRegister (domain : String) (port : Int)
  | mdnsShutdown (domain : String)
deriving DecidableEq, Repr

/-- The distinct error returns of `LocalBase.Add` / `LocalBase.Remove`
(core.go), one constructor per `fmt.Errorf` site. -/
inductive Err
  | invalidDomain (msg : String)
  | invalidPort (msg : String)
  | alreadyRegistered (domain : String)
  | caddyFailed (msg : String)
  | mdnsFailed (msg : String)
  | notRegistered (domain : String)
deriving DecidableEq, Repr

/-- The error strings produced by the `fmt.Errorf` calls of core.go for each
constructor of `Err`. -/
def errMessage : Err → String
  | .invalidDomain msg => "invalid domain: " ++ msg
  | .invalidPort msg => "invalid port: " ++ msg
  | .alreadyRegistered d => "domain " ++ d ++ " is already registered"
  | .caddyFailed msg => "failed to register with Caddy: " ++ msg
  | .mdnsFailed msg => "failed to register mDNS: " ++ msg
  | .notRegistered d => "domain " ++ d ++ " is not registered"

/-- Result of one orchestrator operation: the returned error (`none` means
success), the state afterwards, and the collaborator calls made, in order. -/
structure OpResult where
  res : Option Err
  state : State
  calls : List ExtCall
deriving DecidableEq, Repr

/-- Embeds `LocalBase.Add` (core.go lines 189-230): validate, normalize, reject an
already-registered domain, register the Caddy route, register mDNS (rolling
the Caddy route back if mDNS fails), then insert the registry entry. -/
def Add (f : Faults) (st : State) (domain : String) (port : Int) : OpResult :=
  match ValidateDomain domain with
  | some e => ⟨some (.invalidDomain e), st, []⟩
  | none =>
    match ValidatePort port with
    | some e => ⟨some (.invalidPort e), st, []⟩
    | none =>
      let d := normalizeDomain domain
      match lookupKey st.domains d with
      | some _ => ⟨some (.alreadyRegistered d), st, []⟩
      | none =>
        match f.caddyAddFails with
        | some msg => ⟨some (.caddyFailed msg), st, [.caddyAdd [d] port]⟩
        | none =>
          match f.mdnsRegisterFails with
          | some msg =>
            ⟨some (.mdnsFailed msg), st,
              [.caddyAdd [d] port, .mdnsRegister d port, .caddyRemove [d]]⟩
          | none =>
            ⟨none,
              ⟨st.domains ++ [(d, port)], st.mdnsServers ++ [d]⟩,
              [.caddyAdd [d] port, .mdnsRegister d port]⟩

/-- Embeds `LocalBase.Remove` (core.go lines 233-264): normalize, fail if absent,
remove the Caddy route (a failure is logged and ignored), tear down the mDNS
server if one is held, delete the registry entry, return success. -/
def Remove (_f : Faults) (st : State) (domain : String) : OpResult :=
  let d := normalizeDomain domain
  match lookupKey st.domains d with
  | none => ⟨some (.notRegistered d), st, []⟩
  | some _ =>
    let calls :=
      [ExtCall.caddyRemove [d]] ++
        (if st.mdnsServers.contains d then [ExtCall.mdnsShutdown d] else [])
    ⟨none,
      ⟨eraseKey st.domains d, st.mdnsServers.filter (fun x => x ≠ d)⟩,
      calls⟩

/-- Embeds `LocalBase.List` (core.go lines 267-280): a snapshot of the registry as
`DomainInfo` records.  (Named `ListRecords` because `List` is taken by the
Lean type.) -/
def ListRecords (st : State) : List DomainInfo :=
  st.domains.map (fun p => ⟨p.1, p.2⟩)

end Core

namespace Lb

/-- The bonjour registration data kept per domain by the `Record` type of
localbase.go (the live server handle itself is opaque; the embedding keeps
the `service` and `host` strings stored alongside it). -/
structure Record where
  service : String
  host : String
deriving DecidableEq, Repr

/-- Result of `LocalBase.Add` of localbase.go: the returned error (`none`
means success), the `records` registry map afterwards, and how many times
`Shutdown` was invoked on the advertisement registration created by this
call. -/
structure AddResult where
  err : Option String
  records : List (String × Record)
  advShutdowns : Nat
deriving DecidableEq, Repr

/-- Embeds `LocalBase.Add` (localbase.go lines 42-92).  `configFails` injects a
failure of `readConfig` (returned verbatim before anything happens).
`getLocalIP` failure and `bonjour.RegisterProxy` failure both call
`log.Fatalln`, which terminates the process rather than returning, so the
embedding covers the executions in which they succeed.  `caddyFails` injects
a failure of `addCaddyServerBlock`; on that path the code runs
`s1.Shutdown()` and then `delete(lb.records, domain)` — with the RAW input
key `domain`, not the `fullDomain` key the entry was stored under. -/
def Add (configFails caddyFails : Bool) (records0 : List (String × Record))
    (domain : String) (_port : Int) : AddResult :=
  if configFails then ⟨some "config error", records0, 0⟩
  else
    let clean := Str.trimSpace domain
    let fullDomain := clean ++ ".local"
    match Core.lookupKey records0 fullDomain with
    | some _ =>
      ⟨some ("domain " ++ fullDomain ++ " already registered"), records0, 0⟩
    | none =>
      let fullHost := fullDomain ++ "."
      let service := "_" ++ clean ++ "._tcp"
      let records1 := records0 ++ [(fullDomain, ⟨service, fullHost⟩)]
      if caddyFails then
        ⟨some "failed to add Caddy server block",
          Core.eraseKey records1 domain, 1⟩
      else ⟨none, records1, 0⟩

end Lb

namespace P8

/-- Embeds `LocalBase.Add` of the part_008 variant (lines 60-115 of that file),
reduced to the part that differs from `Lb.Add`: same mDNS-first order, but
the rollback on a Caddy failure deletes the entry under the `fullDomain` key
it was stored under.  Validation is delegated to a validator collaborator
exactly as in core.go; the embedding takes the validator verdicts as
already-passed hypotheses via the fault flags, since only the rollback path
is at stake here. -/
def Add (caddyFails : Bool) (records0 : List (String × Lb.Record))
    (domain : String) (_port : Int) : Lb.AddResult :=
  let clean := Str.trimSpace domain
  let fullDomain := clean ++ ".local"
  match Core.lookupKey records0 fullDomain with
  | some _ =>
    ⟨some ("domain " ++ fullDomain ++ " already registered"), records0, 0⟩
  | none =>
    let fullHost := fullDomain ++ "."
    let service := "_" ++ clean ++ "._tcp"
    let records1 := records0 ++ [(fullDomain, ⟨service, fullHost⟩)]
    if caddyFails then
      ⟨some "failed to add Caddy server block",
        Core.eraseKey records1 fullDomain, 1⟩
    else ⟨none, records1, 0⟩

end P8

namespace Pool

/-- Outcome of one spawned connection handler: the handler function may
return nil, return an error, or panic (the panic is recovered inside
`handleConnection`, pool.go lines 79-81). -/
inductive HandlerOutcome
  | success
  | failure
  | fault
deriving DecidableEq, Repr

/-- State of `ConnectionPoolImpl` (pool.go): the configured
`maxConnections` (capacity of the `semaphore` channel), the `activeCount`
int32 counter, the current occupancy of the semaphore channel, and whether
the pool context has been cancelled. -/
structure State where
  maxConnections : Nat
  activeCount : Int
  semUsed : Nat
  down : Bool
deriving DecidableEq, Repr

/-- Embeds `ActiveConnections` (pool.go lines 96-98). -/
def ActiveConnections (st : State) : Int := st.activeCount

/-- The three ways `Accept` can end.  The rejection constructors record that
the connection was closed and, for a full pool, the two figures the error
message `"connection pool is full (max: %d, current: %d)"` reports:
`p.maxConnections` and the `activeCount` read at that moment. -/
inductive AcceptOutcome
  | admitted
  | rejectedShuttingDown (connClosed : Bool)
  | rejectedFull (connClosed : Bool) (maxReported : Int)
      (currentReported : Int)
deriving DecidableEq, Repr

/-- Embeds `Accept` (pool.go lines 41-70): if the pool context is cancelled the
connection is closed and a shutting-down error returned; otherwise a
non-blocking send on the semaphore channel is attempted — it succeeds iff
the channel occupancy is below its capacity — and on success the counter is
incremented and a handler spawned; otherwise the connection is closed and
the pool-full error returned.  The function never blocks: both selects have
a default arm. -/
def Accept (st : State) : AcceptOutcome × State :=
  if st.down then (.rejectedShuttingDown true, st)
  else if st.semUsed < st.maxConnections then
    (.admitted,
      { st with semUsed := st.semUsed + 1, activeCount := st.activeCount + 1 })
  else (.rejectedFull true (st.maxConnections : Int) st.activeCount, st)

/-- The deferred block of `handleConnection` (pool.go lines 73-82): close
the connection, receive from the semaphore, decrement `activeCount`.  It
runs exactly once when the handler returns, whether the handler returned
nil, returned an error, or panicked (the `recover()` in the same deferred
block absorbs the panic), so it does not depend on the `HandlerOutcome`. -/
def release (st : State) : State :=
  { st with semUsed := st.semUsed - 1, activeCount := st.activeCount - 1 }

/-- Events of a pool history: an `Accept` call, the completion of one
spawned handler (with its outcome), or cancellation of the pool context. -/
inductive Event
  | accept
  | complete (o : HandlerOutcome)
  | shutdown
deriving DecidableEq, Repr

/-- Fresh pool as built by `NewConnectionPool` (pool.go lines 28-38). -/
def initState (maxConnections : Nat) : State :=
  ⟨maxConnections, 0, 0, false⟩

/-- Run a pool history.  The second component counts the handlers currently
in flight (spawned by an admitted `Accept`, not yet completed); a
`complete` event can only be produced by an in-flight handler, so a history
with more completions than admissions is rejected (`none`). -/
def run : State → Nat → List Event → Option (State × Nat)
  | st, inFlight, [] => some (st, inFlight)
  | st, inFlight, .accept :: rest =>
    let (o, st') := Accept st
    run st' (match o with | .admitted => inFlight + 1 | _ => inFlight) rest
  | st, inFlight, .complete _ :: rest =>
    match inFlight with
    | 0 => none
    | n + 1 => run (release st) n rest
  | st, inFlight, .shutdown :: rest =>
    run { st with down := true } inFlight rest

end Pool

namespace Proto

/-- Embeds `ProtocolVersion` (part_004 line 14). -/
def ProtocolVersion : String := "1.0"

/-- Error-code constants of part_004 lines 48-55. -/
def ErrorCodeInvalidRequest : Int := -32600

def ErrorCodeMethodNotFound : Int := -32601

def ErrorCodeInvalidParams : Int := -32602

def ErrorCodeInternalError : Int := -32603

def ErrorCodeTimeout : Int := -32001

def ErrorCodeValidation : Int := -32002

/-- One value of the decoded `params` map (`map[string]interface{}`).  JSON
numbers decode to float64 and the handler converts the port with
`int(portFloat)`; the requests treated in this development carry
integer-valued ports, for which that conversion is the identity, so numbers
are modelled as integers. -/
inductive ParamValue
  | str (s : String)
  | num (n : Int)
deriving DecidableEq, Repr

/-- Embeds `Request` (part_004 lines 17-22). -/
structure Request where
  version : String
  method : String
  params : List (String × ParamValue)
  id : String
deriving DecidableEq, Repr

/-- Embeds `Error` (part_004 lines 33-37): code, message, optional data (empty
string when absent). -/
structure ErrObj where
  code : Int
  message : String
  data : String
deriving DecidableEq, Repr

/-- A successful method result, one constructor per result literal built in
part_004 (`handleAdd` line 177-181, `handleRemove` line 194, `handleList`
line 203, `ping` line 140, `handleShutdown` line 214). -/
inductive RpcResult
  | addDone (domain : String) (port : Int)
  | removeDone (domain : String)
  | listDone (domains : List String)
  | pingDone (status : String) (version : String)
  | shutdownDone
deriving DecidableEq, Repr

/-- Embeds `Response` (part_004 lines 25-30). -/
structure Response where
  version : String
  result : Option RpcResult
  error : Option ErrObj
  id : String
deriving DecidableEq, Repr

/-- A Go `error` value as `HandleConnection` discriminates it (part_004
lines 118-123): either a `*Error` protocol error (which keeps its code), or
any other error (only its `Error()` string is observable). -/
inductive GoErr
  | rpc (e : ErrObj)
  | plain (message : String)
deriving DecidableEq, Repr

/-- Record of the calls a request dispatch makes on the `DomainService` and
the shutdown hook. -/
inductive SvcCall
  | add (domain : String) (port : Int)
  | remove (domain : String)
  | list
  | shutdownTrigger
deriving DecidableEq, Repr

/-- The `DomainService` collaborator behind the handler, as the handler can
observe it: each method either succeeds or yields a Go error. -/
structure ServiceModel where
  addRes : String → Int → Option GoErr
  removeRes : String → Option GoErr
  listRes : Except GoErr (List String)

/-- The `Validator` collaborator (`ValidateDomain` / `ValidatePort`
verdicts; `some msg` is a rejection carrying the error message). -/
structure ValidatorModel where
  domainErr : String → Option String
  portErr : Int → Option String

/-- Go `params["domain"].(string)`: `some` iff the key is present with a
string value. -/
def getStringParam (params : List (String × ParamValue)) (key : String) :
    Option String :=
  match Core.lookupKey params key with
  | some (.str s) => some s
  | _ => none

/-- Go `params["port"].(float64)` followed by `int(...)`: `some` iff the
key is present with a numeric value. -/
def getNumParam (params : List (String × ParamValue)) (key : String) :
    Option Int :=
  match Core.lookupKey params key with
  | some (.num n) => some n
  | _ => none

/-- Embeds `ProtocolHandler.handleAdd` (part_004 lines 151-182): extract and
type-check `domain` then `port` (InvalidParams on failure), validate domain
then port (ValidationError carrying the validator message on failure), call
`service.Add` forwarding its error unchanged, and on success report
`fmt.Sprintf("%s.local", domain)` — the raw input with `.local` appended
unconditionally — together with the port and a `registered` status. -/
def handleAdd (v : ValidatorModel) (svc : ServiceModel)
    (params : List (String × ParamValue)) :
    Except GoErr RpcResult × List SvcCall :=
  match getStringParam params "domain" with
  | none =>
    (.error (.rpc ⟨ErrorCodeInvalidParams,
      "missing or invalid 'domain' parameter", ""⟩), [])
  | some domain =>
    match getNumParam params "port" with
    | none =>
      (.error (.rpc ⟨ErrorCodeInvalidParams,
        "missing or invalid 'port' parameter", ""⟩), [])
    | some port =>
      match v.domainErr domain with
      | some e =>
        (.error (.rpc ⟨ErrorCodeValidation, "invalid domain", e⟩), [])
      | none =>
        match v.portErr port with
        | some e =>
          (.error (.rpc ⟨ErrorCodeValidation, "invalid port", e⟩), [])
        | none =>
          match svc.addRes domain port with
          | some err => (.error err, [.add domain port])
          | none =>
            (.ok (.addDone (domain ++ ".local") port), [.add domain port])

/-- Embeds `ProtocolHandler.handleRemove` (part_004 lines 184-195). -/
def handleRemove (svc : ServiceModel)
    (params : List (String × ParamValue)) :
    Except GoErr RpcResult × List SvcCall :=
  match getStringParam params "domain" with
  | none =>
    (.error (.rpc ⟨ErrorCodeInvalidParams,
      "missing or invalid 'domain' parameter", ""⟩), [])
  | some domain =>
    match svc.removeRes domain with
    | some err => (.error err, [.remove domain])
    | none => (.ok (.removeDone domain), [.remove domain])

/-- Embeds `ProtocolHandler.handleList` (part_004 lines 197-204). -/
def handleList (svc : ServiceModel) :
    Except GoErr RpcResult × List SvcCall :=
  match svc.listRes with
  | .error err => (.error err, [.list])
  | .ok domains => (.ok (.listDone domains), [.list])

/-- Embeds `ProtocolHandler.processRequest` (part_004 lines 129-149): exact-match
dispatch on the method name. -/
def processRequest (v : ValidatorModel) (svc : ServiceModel)
    (req : Request) : Except GoErr RpcResult × List SvcCall :=
  if req.method = "add" then handleAdd v svc req.params
  else if req.method = "remove" then handleRemove svc req.params
  else if req.method = "list" then handleList svc
  else if req.method = "ping" then
    (.ok (.pingDone "ok" ProtocolVersion), [])
  else if req.method = "shutdown" then
    (.ok .shutdownDone, [.shutdownTrigger])
  else
    (.error (.rpc ⟨ErrorCodeMethodNotFound,
      "unknown method: " ++ req.method, ""⟩), [])

/-- The outcome of `reader.ReadBytes('\n')` followed by `json.Unmarshal`,
as `HandleConnection` case-splits on it (part_004 lines 93-104): the read
hit end-of-file before a newline (`io.EOF`, with whatever bytes were already
received), the read failed with a non-EOF error, a newline-terminated line
arrived but is not valid JSON for a `Request`, or a request was decoded. -/
inductive ConnInput
  | eofBeforeDelim (bytesRead : String)
  | readFailure (message : String)
  | badJson (raw : String) (jsonErrMsg : String)
  | request (req : Request)

/-- What one `HandleConnection` call did: the single response written to the
connection, if any, and the service calls made.  Serialization of the fixed
response structures cannot fail and writes go to the buffered writer, so the
Go return value is nil on every modelled path — on the EOF path by the
literal `return nil` (line 96), elsewhere as the nil result of
`sendError` / `sendResponse`. -/
structure ConnResult where
  written : Option Response
  calls : List SvcCall
deriving DecidableEq, Repr

/-- Embeds `ProtocolHandler.sendError` (part_004 lines 240-265): the error
response it marshals and writes. -/
def sendErrorResp (id : String) (code : Int) (message data : String) :
    Response :=
  ⟨ProtocolVersion, none, some ⟨code, message, data⟩, id⟩

/-- Embeds `ProtocolHandler.HandleConnection` (part_004 lines 85-127): on EOF
return nil writing nothing; on a failed read or bad JSON send an
InvalidRequest error (with empty id); reject a version mismatch with an
InvalidRequest error naming the received and expected versions, without
dispatching; otherwise dispatch via `processRequest` and send its result —
a `*Error` keeps its code, any other error becomes InternalError with the
error text as data. -/
def HandleConnection (v : ValidatorModel) (svc : ServiceModel)
    (input : ConnInput) : ConnResult :=
  match input with
  | .eofBeforeDelim _ => ⟨none, []⟩
  | .readFailure msg =>
    ⟨some (sendErrorResp "" ErrorCodeInvalidRequest
      "failed to read request" msg), []⟩
  | .badJson _ msg =>
    ⟨some (sendErrorResp "" ErrorCodeInvalidRequest "invalid JSON" msg), []⟩
  | .request req =>
    if req.version ≠ ProtocolVersion then
      ⟨some (sendErrorResp req.id ErrorCodeInvalidRequest
        ("unsupported protocol version: " ++ req.version ++
          " (expected " ++ ProtocolVersion ++ ")") ""), []⟩
    else
      match processRequest v svc req with
      | (.ok r, calls) => ⟨some ⟨ProtocolVersion, some r, none, req.id⟩, calls⟩
      | (.error (.rpc e), calls) =>
        ⟨some (sendErrorResp req.id e.code e.message e.data), calls⟩
      | (.error (.plain msg), calls) =>
        ⟨some (sendErrorResp req.id ErrorCodeInternalError
          "internal error" msg), calls⟩

/-- The `DomainService` the daemon actually wires behind the handler is the
core.go `LocalBase`; its methods return `fmt.Errorf` errors, which are not
`*Error` values, so the handler observes them as `GoErr.plain` carrying the
error string. -/
def coreService (f : Core.Faults) (st : Core.State) : ServiceModel where
  addRes := fun domain port =>
    match (Core.Add f st domain port).res with
    | some e => some (.plain (Core.errMessage e))
    | none => none
  removeRes := fun domain =>
    match (Core.Remove f st domain).res with
    | some e => some (.plain (Core.errMessage e))
    | none => none
  listRes := .ok (st.domains.map (fun p => p.1))

/-- The `Validator` the daemon wires is the core.go `DomainValidator`. -/
def coreValidator : ValidatorModel where
  domainErr := Core.ValidateDomain
  portErr := Core.ValidatePort

end Proto

example : Core.ValidateDomain "myapp" = none := by decide
example : Core.ValidateDomain "demo.local" = none := by decide
example : Core.ValidateDomain "localhost" =
    some "localhost is a reserved domain" := by decide
example : Core.ValidateDomain "-bad" = some "invalid domain label: -bad" := by
  decide
example : Core.normalizeDomain "x.local" = "x.local" := by decide
example : Core.normalizeDomain "x" = "x.local" := by decide
example : Core.ValidatePort 3000 = none := by decide

/-- Claim C1: per the spec, a proxy (Caddy) failure during `Add` must leave
no registry entry and tear the fresh advertisement registration down exactly
once.  Evaluating the localbase.go `Add` at the failing input
`Add("myapp", 3000)` with the Caddy call failing shows: the error is
returned and `Shutdown` ran exactly once, but the rollback executes
`delete(lb.records, domain)` with the raw key `"myapp"` instead of the
`"myapp.local"` key the entry was stored under, so the registry entry
survives.  (The sibling variant `P8.Add` deletes the `fullDomain` key,
confirming the intended behavior; see `p8_add_rollback_removes_entry`.) -/
theorem c1_lb_add_rollback_leaves_registry_entry :
    Lb.Add false true [] "myapp" 3000 =
      ⟨some "failed to add Caddy server block",
        [("myapp.local", ⟨"_myapp._tcp", "myapp.local."⟩)], 1⟩ := by
  decide

/-- The part_008 variant of `Add` performs the same rollback but deletes the
entry under the key it was inserted with, leaving the registry empty — the
behavior claim C1 (and the spec) describes. -/
theorem p8_add_rollback_removes_entry :
    P8.Add true [] "myapp" 3000 =
      ⟨some "failed to add Caddy server block", [], 1⟩ := by
  decide

/-- In the core.go variant the Caddy route is added before mDNS, so when the
proxy call fails the advertisement collaborator has not been invoked at all:
the registry is untouched and the only collaborator call is the failed
`AddServerBlock` — zero `Shutdown` invocations, not one. -/
theorem core_add_proxy_failure_makes_no_adv_call :
    Core.Add ⟨some "boom", none, none, false⟩ ⟨[], []⟩ "myapp" 3000 =
      ⟨some (.caddyFailed "boom"), ⟨[], []⟩,
        [.caddyAdd ["myapp.local"] 3000]⟩ := by
  decide

/-- Running a pool history preserves the correspondence between the
`activeCount` counter, the semaphore occupancy, and the number of in-flight
handlers: each admission increments all three and each completion (of
whatever outcome) releases all three exactly once. -/
theorem pool_run_counts (ev : List Pool.Event) :
    ∀ (st st' : Pool.State) (n n' : Nat),
      Pool.run st n ev = some (st', n') →
      st.activeCount = (n : Int) → st.semUsed = n →
      st'.activeCount = (n' : Int) ∧ st'.semUsed = n' ∧
        st'.maxConnections = st.maxConnections := by
  induction ev with
  | nil =>
    intro st st' n n' h h1 h2
    simp only [Pool.run, Option.some.injEq, Prod.mk.injEq] at h
    obtain ⟨rfl, rfl⟩ := h
    exact ⟨h1, h2, rfl⟩
  | cons e rest ih =>
    intro st st' n n' h h1 h2
    cases e with
    | accept =>
      by_cases hd : st.down
      · simp only [Pool.run, Pool.Accept, hd, if_true] at h
        exact ih st st' n n' h h1 h2
      · by_cases hs : st.semUsed < st.maxConnections
        · simp only [Pool.run, Pool.Accept, hd, if_false, hs, if_true] at h
          have := ih _ st' (n + 1) n' h (by simp [h1]) (by simp [h2])
          simpa using this
        · simp only [Pool.run, Pool.Accept, hd, if_false, hs] at h
          exact ih st st' n n' h h1 h2
    | complete o =>
      cases n with
      | zero => simp [Pool.run] at h
      | succ m =>
        simp only [Pool.run] at h
        have := ih _ st' m n' h
          (by simp [Pool.release, h1])
          (by simp [Pool.release, h2])
        simpa [Pool.release] using this
    | shutdown =>
      simp only [Pool.run] at h
      have := ih _ st' n n' h (by simpa using h1) (by simpa using h2)
      simpa using this

/-- Claim C2: for every sequence of pool admissions and handler completions
(each spawned handler returning nil, returning an error, or panicking —
the completion step `Pool.release` is independent of the outcome), the
`activeCount` counter and the semaphore occupancy always equal the number of
in-flight handlers, so both are released exactly once per admitted
connection, and once every spawned handler has completed
`ActiveConnections()` returns 0. -/
theorem c2_pool_releases_exactly_once (maxConnections : Nat)
    (ev : List Pool.Event) (st : Pool.State) (inFlight : Nat)
    (h : Pool.run (Pool.initState maxConnections) 0 ev = some (st, inFlight)) :
    Pool.ActiveConnections st = (inFlight : Int) ∧ st.semUsed = inFlight ∧
      (inFlight = 0 → Pool.ActiveConnections st = 0) := by
  have hinv := pool_run_counts ev (Pool.initState maxConnections) st 0 inFlight
    h rfl rfl
  refine ⟨hinv.1, hinv.2.1, ?_⟩
  intro h0
  simp [Pool.ActiveConnections, hinv.1, h0]

/-- Witness for claim C2 at a concrete history: capacity 2, two admissions,
one handler panics and one succeeds; afterwards no handler is in flight and
`ActiveConnections` is 0. -/
theorem c2_pool_releases_exactly_once_witness :
    Pool.run (Pool.initState 2) 0
        [.accept, .accept, .complete .fault, .complete .success] =
      some (⟨2, 0, 0, false⟩, 0) ∧
    (Pool.ActiveConnections ⟨2, 0, 0, false⟩ = ((0 : Nat) : Int) ∧
      Pool.State.semUsed ⟨2, 0, 0, false⟩ = 0 ∧
      (0 = 0 → Pool.ActiveConnections ⟨2, 0, 0, false⟩ = 0)) :=
  ⟨by decide,
    c2_pool_releases_exactly_once 2
      [.accept, .accept, .complete .fault, .complete .success]
      ⟨2, 0, 0, false⟩ 0 (by decide)⟩

/-- Claim C7: on a pool that is not shutting down, an `Accept` arriving with
the semaphore at capacity (all slots held by in-flight handlers) is rejected
on the spot — the model function is total, mirroring the `default` arm of
the non-blocking select — with the connection closed and an error reporting
the configured maximum and the `activeCount` read at that moment, while an
`Accept` arriving with a free slot is admitted. -/
theorem c7_pool_full_rejects_without_blocking (st : Pool.State)
    (hdown : st.down = false) :
    (st.semUsed = st.maxConnections →
      Pool.Accept st =
        (.rejectedFull true (st.maxConnections : Int) st.activeCount, st)) ∧
    (st.semUsed < st.maxConnections → (Pool.Accept st).1 = .admitted) := by
  constructor
  · intro hfull
    simp [Pool.Accept, hdown, hfull]
  · intro hlt
    simp [Pool.Accept, hdown, hlt]

/-- Witness for claim C7: a pool of capacity 2 with 2 handlers in flight
rejects the next `Accept` with a closed connection and the pool-full error
reporting max 2, current 2. -/
theorem c7_pool_full_rejects_without_blocking_witness :
    Pool.Accept ⟨2, 2, 2, false⟩ =
      (.rejectedFull true 2 2, ⟨2, 2, 2, false⟩) :=
  (c7_pool_full_rejects_without_blocking ⟨2, 2, 2, false⟩ rfl).1 rfl

/-- Looking a key up after erasing it yields nothing (Go `delete` followed
by a map read of the same key). -/
theorem lookupKey_eraseKey_self {α : Type} (l : List (String × α))
    (k : String) : Core.lookupKey (Core.eraseKey l k) k = none := by
  induction l with
  | nil => rfl
  | cons hd tl ih =>
    obtain ⟨k1, v1⟩ := hd
    by_cases h : k1 = k
    · simpa [Core.eraseKey, List.filter, h] using ih
    · simpa [Core.eraseKey, List.filter, h, Core.lookupKey] using ih

/-- Erasing one key leaves every other key's binding unchanged. -/
theorem lookupKey_eraseKey_ne {α : Type} (l : List (String × α))
    (k k' : String) (h : k' ≠ k) :
    Core.lookupKey (Core.eraseKey l k) k' = Core.lookupKey l k' := by
  induction l with
  | nil => rfl
  | cons hd tl ih =>
    obtain ⟨k1, v1⟩ := hd
    by_cases hk : k1 = k
    · have hne : ¬ k1 = k' := by
        intro hh
        rw [hh] at hk
        exact h hk
      simpa [Core.eraseKey, List.filter, hk, Core.lookupKey, hne,
        Ne.symm h] using ih
    · by_cases hk' : k1 = k'
      · simp [Core.eraseKey, List.filter, hk, Core.lookupKey, hk', h]
      · simpa [Core.eraseKey, List.filter, hk, Core.lookupKey, hk'] using ih

/-- Claim C4: starting from an empty registry with non-failing
collaborators, `Add(domain, port)` on any valid domain and port succeeds and
`List` then yields exactly one record, keyed by the normalized domain (the
input with `.local` appended exactly when missing — in particular an input
already ending in `.local` is kept as is) with the given port. -/
theorem c4_add_then_list_single_record (domain : String) (port : Int)
    (hd : Core.ValidateDomain domain = none)
    (hp : Core.ValidatePort port = none) :
    (Core.Add Core.noFaults ⟨[], []⟩ domain port).res = none ∧
    Core.ListRecords (Core.Add Core.noFaults ⟨[], []⟩ domain port).state =
      [⟨Core.normalizeDomain domain, port⟩] := by
  constructor
  · simp [Core.Add, hd, hp, Core.noFaults, Core.lookupKey]
  · simp [Core.Add, hd, hp, Core.noFaults, Core.lookupKey, Core.ListRecords]

/-- Witness for claim C4 at the input `("demo.local", 3000)`, whose domain
already carries the `.local` suffix: the single listed record is
`{demo.local, 3000}` (no doubled suffix). -/
theorem c4_add_then_list_single_record_witness :
    Core.ValidateDomain "demo.local" = none ∧
    Core.ValidatePort 3000 = none ∧
    ((Core.Add Core.noFaults ⟨[], []⟩ "demo.local" 3000).res = none ∧
      Core.ListRecords
          (Core.Add Core.noFaults ⟨[], []⟩ "demo.local" 3000).state =
        [⟨Core.normalizeDomain "demo.local", 3000⟩]) :=
  ⟨by decide, by decide,
    c4_add_then_list_single_record "demo.local" 3000 (by decide) (by decide)⟩

/-- Claim C5: if the normalized form of a (valid) domain is already bound in
the registry, `Add` returns the already-registered error, leaves the state
(registry and mDNS handles) exactly as it was — same size, same contents —
and makes no call to either external collaborator, under every fault
behavior of the collaborators. -/
theorem c5_add_already_registered_no_mutation (f : Core.Faults)
    (st : Core.State) (domain : String) (port p0 : Int)
    (hd : Core.ValidateDomain domain = none)
    (hp : Core.ValidatePort port = none)
    (hreg : Core.lookupKey st.domains (Core.normalizeDomain domain) =
      some p0) :
    Core.Add f st domain port =
      ⟨some (.alreadyRegistered (Core.normalizeDomain domain)), st, []⟩ := by
  simp [Core.Add, hd, hp, hreg]

/-- Witness for claim C5: registry already holds `demo.local`; adding
`demo` (which normalizes to the same key) changes nothing and calls no
collaborator, even with every collaborator call set to fail. -/
theorem c5_add_already_registered_no_mutation_witness :
    Core.ValidateDomain "demo" = none ∧
    Core.ValidatePort 4000 = none ∧
    Core.lookupKey (Core.State.domains ⟨[("demo.local", 8080)],
      ["demo.local"]⟩) (Core.normalizeDomain "demo") = some 8080 ∧
    Core.Add ⟨some "a", some "b", some "c", true⟩
        ⟨[("demo.local", 8080)], ["demo.local"]⟩ "demo" 4000 =
      ⟨some (.alreadyRegistered (Core.normalizeDomain "demo")),
        ⟨[("demo.local", 8080)], ["demo.local"]⟩, []⟩ :=
  ⟨by decide, by decide, by decide,
    c5_add_already_registered_no_mutation ⟨some "a", some "b", some "c", true⟩
      ⟨[("demo.local", 8080)], ["demo.local"]⟩ "demo" 4000 8080
      (by decide) (by decide) (by decide)⟩

/-- Claim C6: `Remove` on a registered domain returns success and deletes
exactly that registry entry — other bindings untouched — for every fault
behavior of the collaborators, including a failing Caddy route removal and a
failing advertisement teardown: those failures are logged and absorbed, and
never reach the caller. -/
theorem c6_remove_always_deletes (f : Core.Faults) (st : Core.State)
    (domain : String) (p0 : Int)
    (hreg : Core.lookupKey st.domains (Core.normalizeDomain domain) =
      some p0) :
    (Core.Remove f st domain).res = none ∧
    Core.lookupKey (Core.Remove f st domain).state.domains
        (Core.normalizeDomain domain) = none ∧
    ∀ k, k ≠ Core.normalizeDomain domain →
      Core.lookupKey (Core.Remove f st domain).state.domains k =
        Core.lookupKey st.domains k := by
  refine ⟨?_, ?_, ?_⟩
  · simp [Core.Remove, hreg]
  · simp [Core.Remove, hreg, lookupKey_eraseKey_self]
  · intro k hk
    simp [Core.Remove, hreg, lookupKey_eraseKey_ne st.domains _ k hk]

/-- Witness for claim C6: removing `demo` (normalizing to the registered
key `demo.local`) with both the Caddy removal and the mDNS teardown failing
still succeeds, deletes `demo.local`, and keeps the unrelated `other.local`
binding. -/
theorem c6_remove_always_deletes_witness :
    Core.lookupKey (Core.State.domains ⟨[("demo.local", 8080),
      ("other.local", 9090)], ["demo.local"]⟩)
      (Core.normalizeDomain "demo") = some 8080 ∧
    ((Core.Remove ⟨none, none, some "down", true⟩
        ⟨[("demo.local", 8080), ("other.local", 9090)],
          ["demo.local"]⟩ "demo").res = none ∧
      Core.lookupKey (Core.Remove ⟨none, none, some "down", true⟩
          ⟨[("demo.local", 8080), ("other.local", 9090)],
            ["demo.local"]⟩ "demo").state.domains
        (Core.normalizeDomain "demo") = none ∧
      ∀ k, k ≠ Core.normalizeDomain "demo" →
        Core.lookupKey (Core.Remove ⟨none, none, some "down", true⟩
            ⟨[("demo.local", 8080), ("other.local", 9090)],
              ["demo.local"]⟩ "demo").state.domains k =
          Core.lookupKey (Core.State.domains ⟨[("demo.local", 8080),
            ("other.local", 9090)], ["demo.local"]⟩) k) :=
  ⟨by decide,
    c6_remove_always_deletes ⟨none, none, some "down", true⟩
      ⟨[("demo.local", 8080), ("other.local", 9090)], ["demo.local"]⟩
      "demo" 8080 (by decide)⟩

/-- Claim C8: any well-formed request whose `version` differs from the
daemon's `"1.0"` — older or newer — is answered with an InvalidRequest
error whose message names the received and the expected version, and
nothing is dispatched: the reply is produced before `processRequest`, so no
service call is made (the call list is empty) for every backing service and
validator. -/
theorem c8_version_mismatch_rejected (v : Proto.ValidatorModel)
    (svc : Proto.ServiceModel) (req : Proto.Request)
    (h : req.version ≠ Proto.ProtocolVersion) :
    Proto.HandleConnection v svc (.request req) =
      ⟨some (Proto.sendErrorResp req.id Proto.ErrorCodeInvalidRequest
        ("unsupported protocol version: " ++ req.version ++
          " (expected " ++ Proto.ProtocolVersion ++ ")") ""), []⟩ := by
  simp [Proto.HandleConnection, h]

/-- Witness for claim C8: a version `"0.1"` add request against the real
core-backed service is rejected with the InvalidRequest message naming both
versions, with no service call. -/
theorem c8_version_mismatch_rejected_witness :
    ("0.1" : String) ≠ Proto.ProtocolVersion ∧
    Proto.HandleConnection Proto.coreValidator
        (Proto.coreService Core.noFaults ⟨[], []⟩)
        (.request ⟨"0.1", "add",
          [("domain", .str "myapp"), ("port", .num 3000)], "42"⟩) =
      ⟨some (Proto.sendErrorResp "42" Proto.ErrorCodeInvalidRequest
        ("unsupported protocol version: " ++ "0.1" ++
          " (expected " ++ Proto.ProtocolVersion ++ ")") ""), []⟩ :=
  ⟨by decide,
    c8_version_mismatch_rejected Proto.coreValidator
      (Proto.coreService Core.noFaults ⟨[], []⟩)
      ⟨"0.1", "add", [("domain", .str "myapp"), ("port", .num 3000)], "42"⟩
      (by decide)⟩

/-- Claim C9: when the read hits end-of-file before a newline delimiter —
whatever bytes were already received — `HandleConnection` takes the
`err == io.EOF` branch and returns nil without writing anything (no service
call either); only a non-EOF read failure is answered with an
InvalidRequest error response (empty request id, the read error text as
data).  This holds for every backing service and validator; it is stated
without hypotheses, over all of them. -/
theorem c9_eof_clean_close (v : Proto.ValidatorModel)
    (svc : Proto.ServiceModel) (bytesRead failMsg : String) :
    Proto.HandleConnection v svc (.eofBeforeDelim bytesRead) = ⟨none, []⟩ ∧
    Proto.HandleConnection v svc (.readFailure failMsg) =
      ⟨some (Proto.sendErrorResp "" Proto.ErrorCodeInvalidRequest
        "failed to read request" failMsg), []⟩ :=
  ⟨rfl, rfl⟩

/-- Counterexample to claim C3: an add request for a domain the registry
already holds.  The orchestrator (`Core.Add`) fails with its plain
`fmt.Errorf` already-registered error — not a `*Error` — so the handler's
type switch falls through to the InternalError arm: the client receives
code -32603 (`InternalError`) with the orchestrator's text demoted to the
`data` field, not an error under a dedicated taxonomy code (no
AlreadyRegistered or ExternalServiceError code exists anywhere in the
code's constants). -/
theorem c3_orchestrator_error_becomes_internal_counterexample :
    Proto.HandleConnection Proto.coreValidator
        (Proto.coreService Core.noFaults
          ⟨[("myapp.local", 3000)], ["myapp.local"]⟩)
        (.request ⟨"1.0", "add",
          [("domain", .str "myapp"), ("port", .num 3000)], "7"⟩) =
      ⟨some (Proto.sendErrorResp "7" Proto.ErrorCodeInternalError
        "internal error" "domain myapp.local is already registered"),
        [.add "myapp" 3000]⟩ := by
  decide

/-- Claim C3 (amended): every add request whose orchestrator call fails is
answered with code InternalError (-32603), message `"internal error"`, and
the orchestrator's error text in the `data` field — because the core.go
orchestrator returns plain `fmt.Errorf` errors rather than `*Error` values,
the handler's pass-through arm for typed errors never sees them.  The
external-failure and already-registered cases are both instances. -/
theorem c3_amended_orchestrator_errors_become_internal
    (f : Core.Faults) (st : Core.State) (domain id0 : String) (port : Int)
    (e : Core.Err)
    (hvd : Core.ValidateDomain domain = none)
    (hvp : Core.ValidatePort port = none)
    (he : (Core.Add f st domain port).res = some e) :
    Proto.HandleConnection Proto.coreValidator (Proto.coreService f st)
        (.request ⟨Proto.ProtocolVersion, "add",
          [("domain", .str domain), ("port", .num port)], id0⟩) =
      ⟨some (Proto.sendErrorResp id0 Proto.ErrorCodeInternalError
        "internal error" (Core.errMessage e)), [.add domain port]⟩ := by
  simp +decide [Proto.HandleConnection, Proto.processRequest,
    Proto.handleAdd, Proto.getStringParam, Proto.getNumParam,
    Core.lookupKey, Proto.coreValidator, Proto.coreService, hvd, hvp, he]

/-- Witness for the amended claim C3 at a concrete input: the proxy
collaborator is fault-injected to fail, the orchestrator reports the Caddy
failure, and the client sees InternalError -32603 with that text as data. -/
theorem c3_amended_orchestrator_errors_become_internal_witness :
    Core.ValidateDomain "myapp" = none ∧
    Core.ValidatePort 3000 = none ∧
    (Core.Add ⟨some "connection refused", none, none, false⟩ ⟨[], []⟩
        "myapp" 3000).res = some (.caddyFailed "connection refused") ∧
    Proto.HandleConnection Proto.coreValidator
        (Proto.coreService ⟨some "connection refused", none, none, false⟩
          ⟨[], []⟩)
        (.request ⟨Proto.ProtocolVersion, "add",
          [("domain", .str "myapp"), ("port", .num 3000)], "9"⟩) =
      ⟨some (Proto.sendErrorResp "9" Proto.ErrorCodeInternalError
        "internal error"
        (Core.errMessage (.caddyFailed "connection refused"))),
        [.add "myapp" 3000]⟩ :=
  ⟨by decide, by decide, by decide,
    c3_amended_orchestrator_errors_become_internal
      ⟨some "connection refused", none, none, false⟩ ⟨[], []⟩ "myapp" "9"
      3000 (.caddyFailed "connection refused")
      (by decide) (by decide) (by decide)⟩

/-- Appending strings adds their lengths. -/
theorem str_len_append (s t : String) :
    Str.len (s ++ t) = Str.len s + Str.len t := by
  cases s with
  | mk l =>
    cases t with
    | mk m => exact List.length_append l m

/-- Claim C10: on the success path, `handleAdd` reports the domain as the
raw input with `.local` appended unconditionally
(`fmt.Sprintf("%s.local", domain)`), whereas the registry key written by
the core.go orchestrator is the normalized domain, which appends the suffix
only when missing — so for an input already ending in `.local` the reported
domain carries a doubled suffix and differs from the stored key. -/
theorem c10_add_reports_doubled_suffix (v : Proto.ValidatorModel)
    (svc : Proto.ServiceModel) (domain : String) (port : Int)
    (hvd : v.domainErr domain = none)
    (hvp : v.portErr port = none)
    (hok : svc.addRes domain port = none) :
    (Proto.handleAdd v svc
        [("domain", .str domain), ("port", .num port)]).1 =
      .ok (.addDone (domain ++ ".local") port) ∧
    (Str.endsWith domain ".local" = true →
      Core.normalizeDomain domain = domain ∧
        domain ++ ".local" ≠ Core.normalizeDomain domain) := by
  constructor
  · simp +decide [Proto.handleAdd, Proto.getStringParam, Proto.getNumParam,
      Core.lookupKey, hvd, hvp, hok]
  · intro hend
    have hnorm : Core.normalizeDomain domain = domain := by
      simp [Core.normalizeDomain, hend]
    refine ⟨hnorm, ?_⟩
    rw [hnorm]
    intro hcontra
    have hlen := congrArg Str.len hcontra
    rw [str_len_append] at hlen
    simp [Str.len] at hlen

/-- Witness for claim C10 at the input `x.local`: the success result
reports `x.local.local` while the normalized registry key is `x.local`. -/
theorem c10_add_reports_doubled_suffix_witness :
    Proto.ValidatorModel.domainErr Proto.coreValidator "x.local" = none ∧
    Proto.ValidatorModel.portErr Proto.coreValidator 3000 = none ∧
    Proto.ServiceModel.addRes (Proto.coreService Core.noFaults ⟨[], []⟩)
      "x.local" 3000 = none ∧
    ((Proto.handleAdd Proto.coreValidator
        (Proto.coreService Core.noFaults ⟨[], []⟩)
        [("domain", .str "x.local"), ("port", .num 3000)]).1 =
      .ok (.addDone ("x.local" ++ ".local") 3000) ∧
    (Str.endsWith "x.local" ".local" = true →
      Core.normalizeDomain "x.local" = "x.local" ∧
        "x.local" ++ ".local" ≠ Core.normalizeDomain "x.local")) :=
  ⟨by decide, by decide, by decide,
    c10_add_reports_doubled_suffix Proto.coreValidator
      (Proto.coreService Core.noFaults ⟨[], []⟩) "x.local" 3000
      (by decide) (by decide) (by decide)⟩
